import Mathlib

/-!
Verification of the request-to-response pipeline of the marine debris
detection service (`backend/main.py`).

The embedding models Python values exactly where the claims depend on them:
unbounded Python integers become `Int`, floating-point confidences become
`Rat` (the constants 0.5 and 0.51 compared against are exact), numpy pixel
arrays become entries of an explicit `Store` indexed by references so that
in-place mutation by `cv2.rectangle` and `cv2.putText`, and the aliasing
behaviour of `image_array.copy()`, are visible. External library calls with
opaque behaviour (the YOLO model, cv2 drawing, JPEG encoding, base64, the
PIL decode composed with the colour conversion) are parameters gathered in
`Env` and `Model`; the original logic of the file is translated directly.

Python exception semantics that matter here: `fastapi.HTTPException`
derives from `Exception`, so the `except Exception` block at the end of
`detect_debris` also catches the `HTTPException(400)` raised for a bad
content type, and re-raises it as a 500 whose detail is `str(e)`;
`str` of an `HTTPException` is "<status>: <detail>".
-/

namespace DebrisDetect

/-- A decoded pixel array (`numpy` array contents), abstract bytes. -/
abbrev Image := List Nat

/-- A reference to a pixel array: numpy arrays are mutable heap objects. -/
abbrev Ref := Nat

/-- The heap of pixel arrays live during one request. -/
structure Store where
  arrays : List Image
deriving DecidableEq, Repr

def Store.get (s : Store) (r : Ref) : Image := (s.arrays[r]?).getD []

def Store.set (s : Store) (r : Ref) (img : Image) : Store := ⟨s.arrays.set r img⟩

/-- `arr.copy()`: allocate a fresh array with the same contents. -/
def Store.alloc (s : Store) (img : Image) : Store × Ref :=
  (⟨s.arrays ++ [img]⟩, s.arrays.length)

/-- One raw box of a YOLO result: `box.xyxy[0]`, `box.conf[0]`, `box.cls[0]`. -/
structure Box where
  xyxy : Rat × Rat × Rat × Rat
  conf : Rat
  cls : Rat
deriving DecidableEq, Repr

/-- One element of `results = model(image_array)`; `result.boxes` may be `None`. -/
structure YoloResult where
  boxes : Option (List Box)
deriving DecidableEq, Repr

/-- The loaded YOLO model: inference plus the optional `names` label table
(`hasattr(model, 'names')`). -/
structure Model where
  run : Image → List YoloResult
  names : Option (Int → String)

/-- External library functions used by the pipeline, with opaque behaviour:
`cv2.rectangle` / `cv2.putText` on green colour, fixed font and thickness;
`cv2.imencode('.jpg', ·)`; `base64.b64encode(·).decode()`; and the decode
step `PIL.Image.open` followed by `cv2.cvtColor(np.array(·), COLOR_RGB2BGR)`,
which raises (with some library message) on undecodable bytes. -/
structure Env where
  rect : Image → (Int × Int) → (Int × Int) → Image
  putText : Image → String → (Int × Int) → Image
  imencodeJpg : Image → List Nat
  b64encode : List Nat → String
  decodeImage : List Nat → Except String Image

/-- A Python exception: either a `fastapi.HTTPException` carrying a status
code and a detail string, or any other exception carrying its message. -/
inductive PyExc where
  | httpExc (status : Nat) (detail : String)
  | other (msg : String)
deriving DecidableEq, Repr

/-- `str(e)`: for `HTTPException` this is "<status>: <detail>". -/
def pyStr : PyExc → String
  | .httpExc status detail => toString status ++ ": " ++ detail
  | .other msg => msg

/-- Python `s.startswith(pre)`: a character-sequence test. -/
def pyStartsWith (s pre : String) : Bool := pre.data.isPrefixOf s.data

/-- `int(x)` on a Python float truncates toward zero. -/
def pyInt (q : Rat) : Int := if 0 ≤ q then q.floor else q.ceil

/-- Python's round-half-to-even on an exact rational. -/
def roundHalfEven (q : Rat) : Int :=
  let f := q.floor
  let frac := q - (f : Rat)
  if frac < 1/2 then f
  else if 1/2 < frac then f + 1
  else if f % 2 = 0 then f else f + 1

/-- `f"{q:.2f}"` on an exact rational value. -/
def format2f (q : Rat) : String :=
  let c := roundHalfEven (q * 100)
  let sign := if c < 0 then "-" else ""
  let a := c.natAbs
  let fracPart := a % 100
  let fracStr := if fracPart < 10 then "0" ++ toString fracPart else toString fracPart
  sign ++ toString (a / 100) ++ "." ++ fracStr

/-- `model.names[class_id] if hasattr(model, 'names') else f"class_{class_id}"`. -/
def labelOf (m : Model) (class_id : Int) : String :=
  match m.names with
  | some names => names class_id
  | none => "class_" ++ toString class_id

/-- One normalized detection record appended to `detections`. -/
structure Detection where
  bbox : List Rat
  confidence : Rat
  className : String
deriving DecidableEq, Repr

/-- The severity classifier, translated clause by clause:
```
if detection_count > 15:
    return "red", "Critical pollution detected"
elif detection_count >= 6:
    return "yellow", "Moderate pollution detected"
else:
    return "green", "Low pollution detected"
```
-/
def classify_severity (detection_count : Int) : String × String :=
  if detection_count > 15 then ("red", "Critical pollution detected")
  else if detection_count ≥ 6 then ("yellow", "Moderate pollution detected")
  else ("green", "Low pollution detected")

/-- The normalized record the loop body builds for a kept box. -/
def mkDetection (m : Model) (box : Box) : Detection :=
  { bbox := [box.xyxy.1, box.xyxy.2.1, box.xyxy.2.2.1, box.xyxy.2.2.2]
    confidence := box.conf
    className := labelOf m (pyInt box.cls) }

/-- The body of the inner `for box in boxes` loop of `process_image`:
threshold test, append to `detections`, draw the rectangle and the label
onto the array `annRef` points to (in place). -/
def processBox (env : Env) (m : Model) (annRef : Ref)
    (acc : List Detection × Store) (box : Box) : List Detection × Store :=
  let x1 := box.xyxy.1
  let y1 := box.xyxy.2.1
  let x2 := box.xyxy.2.2.1
  let y2 := box.xyxy.2.2.2
  let confidence := box.conf
  let class_id := pyInt box.cls
  if (1 : Rat)/2 < confidence then
    let label := labelOf m class_id
    let detections := acc.1 ++
      [{ bbox := [x1, y1, x2, y2], confidence := confidence, className := label }]
    let ann0 := acc.2.get annRef
    let ann1 := env.rect ann0 (pyInt x1, pyInt y1) (pyInt x2, pyInt y2)
    let ann2 := env.putText ann1 (label ++ ": " ++ format2f confidence)
      (pyInt x1, pyInt (y1 - 10))
    (detections, acc.2.set annRef ann2)
  else acc

/-- The body of the outer `for result in results` loop: skip when
`result.boxes is None`, otherwise run the inner loop. -/
def processResult (env : Env) (m : Model) (annRef : Ref)
    (acc : List Detection × Store) (result : YoloResult) : List Detection × Store :=
  match result.boxes with
  | none => acc
  | some boxes => boxes.foldl (processBox env m annRef) acc

/--
`process_image(image_array)`: raises `HTTPException(500, "Model not loaded")`
when the model singleton is absent; otherwise runs inference, copies the
input array, loops over the results drawing on the copy, and returns the
detections together with (a reference to) the annotated copy. The input
array is `imageRef` inside `st`; the returned store reflects all mutation.
-/
def process_image (env : Env) (model : Option Model) (st : Store) (imageRef : Ref) :
    Except PyExc (List Detection × Ref) × Store :=
  match model with
  | none => (.error (.httpExc 500 "Model not loaded"), st)
  | some m =>
    let results := m.run (st.get imageRef)
    let allocated := st.alloc (st.get imageRef)
    let st1 := allocated.1
    let annRef := allocated.2
    let out := results.foldl (processResult env m annRef) ([], st1)
    (.ok (out.1, annRef), out.2)

/-- The uploaded multipart file: declared content type, filename, raw bytes. -/
structure UploadFile where
  filename : String
  content_type : String
  contents : List Nat
deriving DecidableEq, Repr

/-- The JSON body of a successful `/detect` response. -/
structure DetectResponse where
  detection_count : Nat
  severity_level : String
  severity_message : String
  detections : List Detection
  annotated_image : String
  filename : String
deriving DecidableEq, Repr

/-- The HTTP outcome of `/detect`: 200 with a body, or an error status with
a detail string. -/
inductive HttpResult where
  | ok (body : DetectResponse)
  | err (status : Nat) (detail : String)
deriving DecidableEq, Repr

/-- The `try` block of `detect_debris`: validate the content type, decode,
run `process_image`, classify, JPEG-encode the annotated array, base64 it,
and assemble the response. Every raised exception becomes `.error`. -/
def detect_debris_try (env : Env) (model : Option Model) (file : UploadFile) :
    Except PyExc DetectResponse :=
  if ¬ pyStartsWith file.content_type "image/" then
    .error (.httpExc 400 "File must be an image")
  else
    match env.decodeImage file.contents with
    | .error msg => .error (.other msg)
    | .ok image_array =>
      let st : Store := ⟨[image_array]⟩
      match process_image env model st 0 with
      | (.error e, _) => .error e
      | (.ok (detections, annRef), stF) =>
        let detection_count := detections.length
        let sev := classify_severity (detection_count : Int)
        let buffer := env.imencodeJpg (stF.get annRef)
        let annotated_image_base64 := env.b64encode buffer
        .ok {
          detection_count := detection_count
          severity_level := sev.1
          severity_message := sev.2
          detections := detections
          annotated_image := "data:image/jpeg;base64," ++ annotated_image_base64
          filename := file.filename }

/-- The whole handler: the `except Exception as e` clause catches every
exception raised in the `try` block — `HTTPException` included, since it
derives from `Exception` — and re-raises `HTTPException(500, str(e))`. -/
def detect_debris (env : Env) (model : Option Model) (file : UploadFile) : HttpResult :=
  match detect_debris_try env model file with
  | .ok response => .ok response
  | .error e => .err 500 (pyStr e)

/-- The body of `GET /health`. -/
structure HealthResponse where
  status : String
  model_loaded : Bool
deriving DecidableEq, Repr

/-- `health_check`: reports whether the model singleton is loaded. -/
def health_check (model : Option Model) : HealthResponse :=
  { status := "healthy", model_loaded := model.isSome }

/-- The boxes the threshold retains, in model output order. -/
def keptBoxes (boxes : List Box) : List Box :=
  boxes.filter (fun box => (1 : Rat)/2 < box.conf)

/-- All raw boxes of an inference run, flattened in model output order;
a result whose `boxes` field is `None` contributes nothing. -/
def rawBoxes (results : List YoloResult) : List Box :=
  (results.map (fun result => result.boxes.getD [])).flatten

/-- A concrete environment for evaluating the pipeline at sample inputs:
drawing is the identity, encoding and decoding are the identity on bytes,
base64 is a constant. -/
def trivEnv : Env where
  rect := fun img _ _ => img
  putText := fun img _ _ => img
  imencodeJpg := fun img => img
  b64encode := fun _ => "AA=="
  decodeImage := fun bytes => .ok bytes

/-- A sample raw box with confidence 0.51, just above the threshold. -/
def witBox : Box := { xyxy := (1, 2, 3, 4), conf := 51/100, cls := 0 }

/-- A sample model yielding exactly one box of confidence 0.51. -/
def witModel : Model where
  run := fun _ => [{ boxes := some [witBox] }]
  names := none

/-- A sample model yielding no results at all. -/
def emptyModel : Model where
  run := fun _ => []
  names := none

/-- A sample model whose single result has an absent `boxes` field. -/
def noneBoxesModel : Model where
  run := fun _ => [{ boxes := none }]
  names := none

/-- A sample one-array store. -/
def witStore : Store := ⟨[[7]]⟩

/-- A sample upload declared as an image. -/
def witFile : UploadFile :=
  { filename := "a.png", content_type := "image/png", contents := [7] }

/-- A sample upload declared as plain text. -/
def textFile : UploadFile :=
  { filename := "notes.txt", content_type := "text/plain", contents := [1, 2, 3] }

/-- The response `detect_debris trivEnv (some emptyModel) witFile` produces. -/
def witResp : DetectResponse :=
  { detection_count := 0
    severity_level := "green"
    severity_message := "Low pollution detected"
    detections := []
    annotated_image := "data:image/jpeg;base64,AA=="
    filename := "a.png" }

theorem Store.get_set_ne (s : Store) (a r : Ref) (img : Image) (h : r ≠ a) :
    (s.set a img).get r = s.get r := by
  simp [Store.set, Store.get, List.getElem?_set_ne (Ne.symm h)]

theorem Store.get_alloc_self (s : Store) (img : Image) :
    (s.alloc img).1.get s.arrays.length = img := by
  simp [Store.alloc, Store.get, List.getElem?_concat_length]

theorem Store.get_alloc_lt (s : Store) (img : Image) (r : Ref)
    (h : r < s.arrays.length) : (s.alloc img).1.get r = s.get r := by
  simp [Store.alloc, Store.get, List.getElem?_append_left h]

theorem keptBoxes_cons (box : Box) (boxes : List Box) :
    keptBoxes (box :: boxes) =
      if (1 : Rat)/2 < box.conf then box :: keptBoxes boxes else keptBoxes boxes := by
  unfold keptBoxes
  rw [List.filter_cons]
  by_cases h : (1 : Rat)/2 < box.conf
  · rw [if_pos (decide_eq_true h), if_pos h]
  · rw [if_neg (fun hd => h (of_decide_eq_true hd)), if_neg h]

theorem keptBoxes_append (l1 l2 : List Box) :
    keptBoxes (l1 ++ l2) = keptBoxes l1 ++ keptBoxes l2 := by
  unfold keptBoxes
  exact List.filter_append _ _

theorem processBox_fst (env : Env) (m : Model) (annRef : Ref)
    (acc : List Detection × Store) (box : Box) :
    (processBox env m annRef acc box).1 =
      if (1 : Rat)/2 < box.conf then acc.1 ++ [mkDetection m box] else acc.1 := by
  simp only [processBox, mkDetection]
  by_cases h : (1 : Rat)/2 < box.conf
  · rw [if_pos h, if_pos h]
  · rw [if_neg h, if_neg h]

theorem processBox_snd_ne (env : Env) (m : Model) (annRef : Ref)
    (acc : List Detection × Store) (box : Box) (r : Ref) (h : r ≠ annRef) :
    ((processBox env m annRef acc box).2).get r = acc.2.get r := by
  simp only [processBox]
  by_cases hc : (1 : Rat)/2 < box.conf
  · rw [if_pos hc]
    exact Store.get_set_ne _ _ _ _ h
  · rw [if_neg hc]

theorem processBox_not_kept (env : Env) (m : Model) (annRef : Ref)
    (acc : List Detection × Store) (box : Box) (h : ¬ (1 : Rat)/2 < box.conf) :
    processBox env m annRef acc box = acc := by
  simp only [processBox]
  rw [if_neg h]

theorem foldl_processBox_fst (env : Env) (m : Model) (annRef : Ref)
    (boxes : List Box) :
    ∀ acc : List Detection × Store,
      (boxes.foldl (processBox env m annRef) acc).1 =
        acc.1 ++ (keptBoxes boxes).map (mkDetection m) := by
  induction boxes with
  | nil => intro acc; simp [keptBoxes]
  | cons box boxes ih =>
    intro acc
    rw [List.foldl_cons, ih, processBox_fst, keptBoxes_cons]
    by_cases h : (1 : Rat)/2 < box.conf
    · rw [if_pos h, if_pos h, List.map_cons, List.append_assoc]
      rfl
    · rw [if_neg h, if_neg h]

theorem foldl_processBox_snd_ne (env : Env) (m : Model) (annRef : Ref)
    (boxes : List Box) :
    ∀ (acc : List Detection × Store) (r : Ref), r ≠ annRef →
      ((boxes.foldl (processBox env m annRef) acc).2).get r = acc.2.get r := by
  induction boxes with
  | nil => intro acc r _; rfl
  | cons box boxes ih =>
    intro acc r h
    rw [List.foldl_cons, ih _ r h, processBox_snd_ne _ _ _ _ _ _ h]

theorem foldl_processBox_id (env : Env) (m : Model) (annRef : Ref) :
    ∀ boxes : List Box, keptBoxes boxes = [] →
      ∀ acc : List Detection × Store,
        boxes.foldl (processBox env m annRef) acc = acc := by
  intro boxes
  induction boxes with
  | nil => intro _ acc; rfl
  | cons box boxes ih =>
    intro h acc
    by_cases hc : (1 : Rat)/2 < box.conf
    · rw [keptBoxes_cons, if_pos hc] at h
      exact absurd h (List.cons_ne_nil _ _)
    · rw [keptBoxes_cons, if_neg hc] at h
      rw [List.foldl_cons, processBox_not_kept _ _ _ _ _ hc, ih h]

theorem processResult_fst (env : Env) (m : Model) (annRef : Ref)
    (acc : List Detection × Store) (result : YoloResult) :
    (processResult env m annRef acc result).1 =
      acc.1 ++ (keptBoxes (result.boxes.getD [])).map (mkDetection m) := by
  cases hb : result.boxes with
  | none => simp [processResult, hb, keptBoxes]
  | some boxes => simp [processResult, hb, foldl_processBox_fst]

theorem processResult_snd_ne (env : Env) (m : Model) (annRef : Ref)
    (acc : List Detection × Store) (result : YoloResult) (r : Ref)
    (h : r ≠ annRef) :
    ((processResult env m annRef acc result).2).get r = acc.2.get r := by
  cases hb : result.boxes with
  | none => simp [processResult, hb]
  | some boxes => simp [processResult, hb, foldl_processBox_snd_ne _ _ _ _ _ _ h]

theorem rawBoxes_cons (result : YoloResult) (results : List YoloResult) :
    rawBoxes (result :: results) = result.boxes.getD [] ++ rawBoxes results := by
  simp [rawBoxes]

theorem foldl_processResult_fst (env : Env) (m : Model) (annRef : Ref)
    (results : List YoloResult) :
    ∀ acc : List Detection × Store,
      (results.foldl (processResult env m annRef) acc).1 =
        acc.1 ++ (keptBoxes (rawBoxes results)).map (mkDetection m) := by
  induction results with
  | nil => intro acc; simp [rawBoxes, keptBoxes]
  | cons result results ih =>
    intro acc
    rw [List.foldl_cons, ih, processResult_fst, rawBoxes_cons, keptBoxes_append,
      List.map_append, List.append_assoc]

theorem foldl_processResult_snd_ne (env : Env) (m : Model) (annRef : Ref)
    (results : List YoloResult) :
    ∀ (acc : List Detection × Store) (r : Ref), r ≠ annRef →
      ((results.foldl (processResult env m annRef) acc).2).get r = acc.2.get r := by
  induction results with
  | nil => intro acc r _; rfl
  | cons result results ih =>
    intro acc r h
    rw [List.foldl_cons, ih _ r h, processResult_snd_ne _ _ _ _ _ _ h]

theorem foldl_processResult_id (env : Env) (m : Model) (annRef : Ref) :
    ∀ results : List YoloResult, keptBoxes (rawBoxes results) = [] →
      ∀ acc : List Detection × Store,
        results.foldl (processResult env m annRef) acc = acc := by
  intro results
  induction results with
  | nil => intro _ acc; rfl
  | cons result results ih =>
    intro h acc
    rw [rawBoxes_cons, keptBoxes_append] at h
    have h12 := List.append_eq_nil.mp h
    have hres : processResult env m annRef acc result = acc := by
      cases hb : result.boxes with
      | none => simp [processResult, hb]
      | some boxes =>
        simp only [processResult, hb]
        exact foldl_processBox_id env m annRef boxes (by simpa [hb] using h12.1) acc
    rw [List.foldl_cons, hres]
    exact ih h12.2 acc

theorem process_image_eq (env : Env) (m : Model) (st : Store) (imageRef : Ref) :
    (process_image env (some m) st imageRef).1 =
      .ok ((keptBoxes (rawBoxes (m.run (st.get imageRef)))).map (mkDetection m),
        st.arrays.length) := by
  simp only [process_image, Store.alloc]
  rw [foldl_processResult_fst]
  simp

theorem process_image_preserves (env : Env) (model : Option Model) (st : Store)
    (imageRef r : Ref) (hr : r < st.arrays.length) :
    ((process_image env model st imageRef).2).get r = st.get r := by
  cases model with
  | none => rfl
  | some m =>
    have hne : r ≠ (st.alloc (st.get imageRef)).2 := by
      simp only [Store.alloc]
      exact Nat.ne_of_lt hr
    simp only [process_image]
    rw [foldl_processResult_snd_ne env m _ (m.run (st.get imageRef))
      ([], (st.alloc (st.get imageRef)).1) r hne]
    exact Store.get_alloc_lt st _ r hr

theorem process_image_zero (env : Env) (m : Model) (st : Store) (imageRef : Ref)
    (h : keptBoxes (rawBoxes (m.run (st.get imageRef))) = []) :
    process_image env (some m) st imageRef =
      (.ok ([], st.arrays.length), (st.alloc (st.get imageRef)).1) := by
  simp only [process_image]
  rw [foldl_processResult_id env m _ _ h]
  rfl

theorem mem_keptBoxes {box : Box} {boxes : List Box} :
    box ∈ keptBoxes boxes ↔ box ∈ boxes ∧ (1 : Rat)/2 < box.conf := by
  unfold keptBoxes
  rw [List.mem_filter, decide_eq_true_eq]

theorem rawBoxes_all_none : ∀ results : List YoloResult,
    (∀ r ∈ results, r.boxes = none) → rawBoxes results = [] := by
  intro results
  induction results with
  | nil => intro _; rfl
  | cons result results ih =>
    intro h
    rw [rawBoxes_cons, h result (List.mem_cons_self _ _),
      ih (fun r hr => h r (List.mem_cons_of_mem _ hr))]
    rfl

theorem detect_debris_try_eq (env : Env) (model : Option Model) (file : UploadFile)
    (img : Image)
    (hct : pyStartsWith file.content_type "image/" = true)
    (hdec : env.decodeImage file.contents = .ok img) :
    detect_debris_try env model file =
      match process_image env model ⟨[img]⟩ 0 with
      | (.error e, _) => .error e
      | (.ok (detections, annRef), stF) => .ok {
          detection_count := detections.length
          severity_level := (classify_severity (detections.length : Int)).1
          severity_message := (classify_severity (detections.length : Int)).2
          detections := detections
          annotated_image := "data:image/jpeg;base64," ++
            env.b64encode (env.imencodeJpg (stF.get annRef))
          filename := file.filename } := by
  unfold detect_debris_try
  rw [if_neg (not_not_intro hct), hdec]

theorem detect_debris_try_count (env : Env) (model : Option Model) (file : UploadFile)
    (r : DetectResponse) (h : detect_debris_try env model file = .ok r) :
    r.detection_count = r.detections.length := by
  unfold detect_debris_try at h
  split at h
  · exact absurd h (by simp)
  · split at h
    · exact absurd h (by simp)
    · dsimp only at h
      split at h
      · exact absurd h (by simp)
      · have hr := Except.ok.inj h
        rw [← hr]

theorem witKept : keptBoxes (rawBoxes (witModel.run (witStore.get 0))) = [witBox] := by
  have h1 : rawBoxes (witModel.run (witStore.get 0)) = [witBox] := rfl
  rw [h1, keptBoxes_cons, if_pos (by norm_num [witBox])]
  rfl

theorem witEq : (process_image trivEnv (some witModel) witStore 0).1
    = .ok ([mkDetection witModel witBox], 1) := by
  rw [process_image_eq, witKept]
  rfl

/-- Claim C1: the spec says a request whose declared content type does not
start with "image/" (for example "text/plain") gets HTTP 400, not 500. The
code violates this: the `HTTPException(400)` is raised inside the `try`
block, so the `except Exception` clause catches it and re-raises it as a
500 whose detail is `str(e)`. Evaluated at a "text/plain" upload with a
loaded model, the handler responds 500, not 400. -/
theorem detect_text_plain_gives_500 :
    detect_debris trivEnv (some emptyModel) textFile
      = .err 500 "400: File must be an image" := by
  rfl

/-- Claim C2: when the model singleton is `None`, `process_image` raises
`HTTPException(500, "Model not loaded")`; a validated, decodable POST
/detect therefore responds 500 with a detail naming the unavailable model,
and GET /health simultaneously reports `model_loaded: false`. -/
theorem model_not_loaded_behaviour (env : Env) (st : Store) (imageRef : Ref)
    (file : UploadFile) (img : Image)
    (hct : pyStartsWith file.content_type "image/" = true)
    (hdec : env.decodeImage file.contents = .ok img) :
    (process_image env none st imageRef).1 = .error (.httpExc 500 "Model not loaded")
      ∧ detect_debris env none file = .err 500 "500: Model not loaded"
      ∧ health_check none = { status := "healthy", model_loaded := false } := by
  refine ⟨rfl, ?_, rfl⟩
  unfold detect_debris detect_debris_try
  rw [if_neg (not_not_intro hct), hdec]
  rfl

theorem model_not_loaded_behaviour_witness :
    pyStartsWith witFile.content_type "image/" = true
      ∧ ((process_image trivEnv none witStore 0).1
          = .error (.httpExc 500 "Model not loaded")
        ∧ detect_debris trivEnv none witFile = .err 500 "500: Model not loaded"
        ∧ health_check none = { status := "healthy", model_loaded := false }) :=
  ⟨by decide,
    model_not_loaded_behaviour trivEnv witStore 0 witFile witFile.contents
      (by decide) rfl⟩

/-- Claim C3: for every non-negative count, `classify_severity` returns
red with "Critical pollution detected" above 15, yellow with "Moderate
pollution detected" from 6 to 15, green with "Low pollution detected"
below 6; the boundary values 0, 5, 6, 15, 16 map to green, green, yellow,
yellow, red. -/
theorem classify_severity_boundaries :
    (∀ count : Int, 0 ≤ count →
      ((15 < count → classify_severity count = ("red", "Critical pollution detected"))
        ∧ (6 ≤ count ∧ count ≤ 15 →
            classify_severity count = ("yellow", "Moderate pollution detected"))
        ∧ (count < 6 → classify_severity count = ("green", "Low pollution detected"))))
    ∧ classify_severity 0 = ("green", "Low pollution detected")
    ∧ classify_severity 5 = ("green", "Low pollution detected")
    ∧ classify_severity 6 = ("yellow", "Moderate pollution detected")
    ∧ classify_severity 15 = ("yellow", "Moderate pollution detected")
    ∧ classify_severity 16 = ("red", "Critical pollution detected") := by
  refine ⟨fun count _ => ⟨fun h => ?_, fun h => ?_, fun h => ?_⟩,
    by decide, by decide, by decide, by decide, by decide⟩
  · unfold classify_severity
    rw [if_pos h]
  · unfold classify_severity
    rw [if_neg (by omega), if_pos h.1]
  · unfold classify_severity
    rw [if_neg (by omega), if_neg (by omega)]

theorem classify_severity_boundaries_witness :
    (0 : Int) ≤ 20 ∧ 15 < (20 : Int)
      ∧ classify_severity 20 = ("red", "Critical pollution detected") :=
  ⟨by decide, by decide,
    (classify_severity_boundaries.1 20 (by decide)).1 (by decide)⟩

/-- Claim C4: `process_image` retains a raw detection exactly when its
confidence is strictly greater than 0.5: a box of confidence exactly 0.5
never appears among the returned detections (every returned confidence is
strictly above 0.5), and a box of confidence above 0.5 — such as 0.51 —
always appears. -/
theorem process_image_confidence_filter (env : Env) (m : Model) (st : Store)
    (imageRef : Ref) (box : Box)
    (hbox : box ∈ rawBoxes (m.run (st.get imageRef)))
    (dets : List Detection) (annRef : Ref)
    (h : (process_image env (some m) st imageRef).1 = .ok (dets, annRef)) :
    (mkDetection m box ∈ dets ↔ (1 : Rat)/2 < box.conf)
      ∧ (box.conf = 1/2 → mkDetection m box ∉ dets)
      ∧ ∀ d ∈ dets, (1 : Rat)/2 < d.confidence := by
  rw [process_image_eq] at h
  have hdets : dets =
      (keptBoxes (rawBoxes (m.run (st.get imageRef)))).map (mkDetection m) :=
    (congrArg Prod.fst (Except.ok.inj h)).symm
  subst hdets
  have hiff : mkDetection m box ∈
      (keptBoxes (rawBoxes (m.run (st.get imageRef)))).map (mkDetection m)
        ↔ (1 : Rat)/2 < box.conf := by
    constructor
    · intro hmem
      obtain ⟨b', hb', heq⟩ := List.mem_map.mp hmem
      have hconf : (1 : Rat)/2 < b'.conf := (mem_keptBoxes.mp hb').2
      have hc : b'.conf = box.conf := congrArg Detection.confidence heq
      rwa [hc] at hconf
    · intro hconf
      exact List.mem_map_of_mem _ (mem_keptBoxes.mpr ⟨hbox, hconf⟩)
  refine ⟨hiff, fun heq hmem => ?_, fun d hd => ?_⟩
  · have hlt := hiff.mp hmem
    rw [heq] at hlt
    exact lt_irrefl _ hlt
  · obtain ⟨b', hb', heq⟩ := List.mem_map.mp hd
    have hconf : (1 : Rat)/2 < b'.conf := (mem_keptBoxes.mp hb').2
    rw [← heq]
    exact hconf

theorem process_image_confidence_filter_witness :
    (1 : Rat)/2 < witBox.conf
      ∧ mkDetection witModel witBox ∈ [mkDetection witModel witBox] :=
  ⟨by norm_num [witBox],
    (process_image_confidence_filter trivEnv witModel witStore 0 witBox
      (by exact List.mem_cons_self _ _) [mkDetection witModel witBox] 1 witEq).1.mpr
      (by norm_num [witBox])⟩

/-- Claim C5: every successful POST /detect response has
`detection_count` equal to the length of its `detections` sequence. -/
theorem detect_count_eq_len (env : Env) (model : Option Model) (file : UploadFile)
    (resp : DetectResponse) (h : detect_debris env model file = .ok resp) :
    resp.detection_count = resp.detections.length := by
  unfold detect_debris at h
  split at h
  next r heq =>
    have hr := HttpResult.ok.inj h
    exact hr ▸ detect_debris_try_count env model file r heq
  next e heq => exact absurd h (by simp)

theorem detect_count_eq_len_witness :
    witResp.detection_count = witResp.detections.length :=
  detect_count_eq_len trivEnv (some emptyModel) witFile witResp (by rfl)

/-- Claim C6: for a validated, decodable image on which the model yields
no raw detection above the 0.5 threshold, the response has
`detection_count` 0, severity "green", an empty `detections` sequence, and
an `annotated_image` whose encoded content is exactly the re-encoded
unannotated input (no boxes were drawn on the copy). -/
theorem detect_zero_detections_response (env : Env) (m : Model) (file : UploadFile)
    (img : Image)
    (hct : pyStartsWith file.content_type "image/" = true)
    (hdec : env.decodeImage file.contents = .ok img)
    (hzero : keptBoxes (rawBoxes (m.run img)) = []) :
    detect_debris env (some m) file = .ok
      { detection_count := 0
        severity_level := "green"
        severity_message := "Low pollution detected"
        detections := []
        annotated_image := "data:image/jpeg;base64," ++
          env.b64encode (env.imencodeJpg img)
        filename := file.filename } := by
  have hzero' : keptBoxes (rawBoxes (m.run ((⟨[img]⟩ : Store).get 0))) = [] := hzero
  have htry := detect_debris_try_eq env (some m) file img hct hdec
  rw [process_image_zero env m ⟨[img]⟩ 0 hzero'] at htry
  unfold detect_debris
  rw [htry]
  rfl

theorem detect_zero_detections_response_witness :
    detect_debris trivEnv (some noneBoxesModel) witFile = .ok
      { detection_count := 0
        severity_level := "green"
        severity_message := "Low pollution detected"
        detections := []
        annotated_image := "data:image/jpeg;base64," ++
          trivEnv.b64encode (trivEnv.imencodeJpg [7])
        filename := witFile.filename } :=
  detect_zero_detections_response trivEnv noneBoxesModel witFile [7]
    (by decide) rfl rfl

/-- Claim C7: `process_image` draws only on the explicit copy it allocated,
so the input pixel array is unchanged when it returns: for any valid
reference into the store, the array it points to is the same before and
after the call. -/
theorem process_image_no_mutation (env : Env) (model : Option Model) (st : Store)
    (imageRef : Ref) (h : imageRef < st.arrays.length) :
    ((process_image env model st imageRef).2).get imageRef = st.get imageRef :=
  process_image_preserves env model st imageRef imageRef h

theorem process_image_no_mutation_witness :
    0 < witStore.arrays.length
      ∧ ((process_image trivEnv (some witModel) witStore 0).2).get 0
          = witStore.get 0 :=
  ⟨by decide,
    process_image_no_mutation trivEnv (some witModel) witStore 0 (by decide)⟩

/-- Claim C8: the detections `process_image` returns are exactly the raw
boxes the model produced, in the model's output order, filtered by the
confidence threshold and normalized — the retained subsequence preserves
model output order, with no sorting by confidence or position. -/
theorem process_image_output_order (env : Env) (m : Model) (st : Store)
    (imageRef : Ref) :
    (process_image env (some m) st imageRef).1 =
      .ok ((keptBoxes (rawBoxes (m.run (st.get imageRef)))).map (mkDetection m),
        st.arrays.length) :=
  process_image_eq env m st imageRef

/-- Claim C9: `classify_severity` is total over all integers: every count
below 6, negative integers included, yields green with "Low pollution
detected" rather than a failure. -/
theorem classify_severity_negative_total :
    ∀ count : Int, count < 6 →
      classify_severity count = ("green", "Low pollution detected") := by
  intro count h
  unfold classify_severity
  rw [if_neg (by omega), if_neg (by omega)]

theorem classify_severity_negative_total_witness :
    (-5 : Int) < 6 ∧ classify_severity (-5) = ("green", "Low pollution detected") :=
  ⟨by decide, classify_severity_negative_total (-5) (by decide)⟩

/-- Claim C10: when every result of the model has an absent (`None`)
`boxes` field, `process_image` does not fail: it returns an empty
detections list, and the annotated array is the unmodified copy of the
input. -/
theorem process_image_boxes_none_safe (env : Env) (m : Model) (st : Store)
    (imageRef : Ref) (h : ∀ r ∈ m.run (st.get imageRef), r.boxes = none) :
    (process_image env (some m) st imageRef).1 = .ok ([], st.arrays.length)
      ∧ ((process_image env (some m) st imageRef).2).get st.arrays.length
          = st.get imageRef := by
  have hz : keptBoxes (rawBoxes (m.run (st.get imageRef))) = [] := by
    rw [rawBoxes_all_none _ h]
    rfl
  rw [process_image_zero env m st imageRef hz]
  exact ⟨rfl, Store.get_alloc_self st _⟩

theorem process_image_boxes_none_safe_witness :
    (process_image trivEnv (some noneBoxesModel) witStore 0).1
        = .ok ([], witStore.arrays.length)
      ∧ ((process_image trivEnv (some noneBoxesModel) witStore 0).2).get
          witStore.arrays.length = witStore.get 0 :=
  process_image_boxes_none_safe trivEnv noneBoxesModel witStore 0 (by decide)

end DebrisDetect
